import Mathlib

/-
Verification of the agent repository: the push ingestion HTTP handler
(configPushRoutes) and the kube metrics exporter (k8s/main.go).
Definitions follow the source; parts of the system whose code lives in
external libraries (the client-go watch cache store, the standard JSON
decoder) are modelled from the specification and marked as such in the
doc comments.
-/

namespace Agent

/-- An HTTP response as the handlers produce it: a status code and a
body text. -/
structure HttpResponse where
  status : Nat
  body : String
deriving DecidableEq, Repr

namespace Push

/-- Metric point pushed by a caller, after model.MetricValue of the
open-falcon common library (fields Endpoint, Metric, Value, Step, Type,
Tags, Timestamp).  The numeric Value is never inspected by the handler
and is carried here as an opaque integer payload. -/
structure MetricValue where
  endpoint : String
  metric : String
  value : Int
  step : Int
  counterType : String
  tags : String
  timestamp : Int
deriving DecidableEq, Repr

/-- Incoming push request as the handler observes it: the declared
content length (req.ContentLength), the request headers (never consulted
by the handler), and the outcome of running the standard-library JSON
decoder on the body: ok with the decoded batch, or error with the decoder
message.  Per encoding/json semantics a body that is the literal empty
array or the literal null decodes into the empty batch with no error. -/
structure PushRequest where
  contentLength : Int
  headers : List (String × String)
  decodeResult : Except String (List MetricValue)

/-- Result of one invocation of the push handler: the HTTP response and
the batch handed to g.SendToTransfer (none when the handler returned
before forwarding anything). -/
structure PushOutcome where
  response : HttpResponse
  forwarded : Option (List MetricValue)
deriving DecidableEq, Repr

/-- Identity defaulting performed by the loop in configPushRoutes: a
point whose Endpoint is empty receives the configured hostname
(g.Config().Hostname); any other point is untouched. -/
def fillEndpoint (hostname : String) (v : MetricValue) : MetricValue :=
  if v.endpoint = "" then { v with endpoint := hostname } else v

/-- Helper used to state that defaulting changes nothing but the
endpoint field: two points agree after stripping their endpoints exactly
when all their other fields agree. -/
def stripEndpoint (v : MetricValue) : MetricValue :=
  { v with endpoint := "" }

/-- The handler registered for the push route in configPushRoutes.
A zero content length yields http.Error 400 with the blank-body text; a
decoder error yields http.Error 400 with the decode-failure text;
otherwise every point with an empty Endpoint is defaulted to the
configured hostname, the batch is handed to g.SendToTransfer, and the
success literal is written with the implicit 200 status.  The sinkOk
argument stands for the outcome of the downstream transfer; the handler
never looks at it (fire and forget). -/
def pushHandler (hostname : String) (sinkOk : Bool) (req : PushRequest) : PushOutcome :=
  if req.contentLength = 0 then
    { response := { status := 400, body := "body is blank" }, forwarded := none }
  else
    match req.decodeResult with
    | Except.error _ =>
        { response := { status := 400, body := "connot decode body" }, forwarded := none }
    | Except.ok metrics =>
        { response := { status := 200, body := "success" },
          forwarded := some (metrics.map (fillEndpoint hostname)) }

theorem fillEndpoint_endpoint (h : String) (v : MetricValue) :
    (fillEndpoint h v).endpoint = if v.endpoint = "" then h else v.endpoint := by
  by_cases hv : v.endpoint = "" <;> simp [fillEndpoint, hv]

theorem fillEndpoint_strip (h : String) (v : MetricValue) :
    stripEndpoint (fillEndpoint h v) = stripEndpoint v := by
  by_cases hv : v.endpoint = "" <;> simp [fillEndpoint, stripEndpoint, hv]

theorem fillEndpoint_of_nonempty (h : String) (v : MetricValue)
    (hv : v.endpoint ≠ "") : fillEndpoint h v = v := by
  simp [fillEndpoint, hv]

theorem fillEndpoint_idem (h : String) (v : MetricValue) :
    fillEndpoint h (fillEndpoint h v) = fillEndpoint h v := by
  by_cases hv : v.endpoint = "" <;> by_cases hh : h = "" <;>
    simp [fillEndpoint, hv, hh]

theorem map_fillEndpoint_endpoint (h : String) (l : List MetricValue) :
    (l.map (fillEndpoint h)).map MetricValue.endpoint
      = l.map (fun v => if v.endpoint = "" then h else v.endpoint) := by
  induction l with
  | nil => rfl
  | cons v t ih => simp [fillEndpoint_endpoint, ih]

theorem map_fillEndpoint_strip (h : String) (l : List MetricValue) :
    (l.map (fillEndpoint h)).map stripEndpoint = l.map stripEndpoint := by
  induction l with
  | nil => rfl
  | cons v t ih => simp [fillEndpoint_strip, ih]

theorem map_fillEndpoint_idem (h : String) (l : List MetricValue) :
    (l.map (fillEndpoint h)).map (fillEndpoint h) = l.map (fillEndpoint h) := by
  induction l with
  | nil => rfl
  | cons v t ih => simp [fillEndpoint_idem, ih]

theorem filter_fillEndpoint_nonempty (h : String) (l : List MetricValue) :
    (l.filter (fun v => v.endpoint != "")).map (fillEndpoint h)
      = l.filter (fun v => v.endpoint != "") := by
  induction l with
  | nil => rfl
  | cons v t ih =>
      by_cases hv : v.endpoint = ""
      · simp [hv, ih]
      · simp [List.filter_cons, hv, fillEndpoint_of_nonempty h v hv, ih]

/-- C1: for every accepted push batch, the forwarded batch is the
pointwise identity defaulting of the decoded batch: an empty Endpoint
becomes the configured hostname while a non-empty Endpoint is kept; a
point that already had an identity is forwarded verbatim; no field other
than the endpoint changes on any point; and the defaulting map is
idempotent. -/
theorem push_identity_defaulting (hostname : String) (sinkOk : Bool)
    (req : PushRequest) (metrics : List MetricValue)
    (hne : req.contentLength ≠ 0)
    (hdec : req.decodeResult = Except.ok metrics) :
    (pushHandler hostname sinkOk req).forwarded
        = some (metrics.map (fillEndpoint hostname)) ∧
    (metrics.map (fillEndpoint hostname)).map MetricValue.endpoint
        = metrics.map (fun v => if v.endpoint = "" then hostname else v.endpoint) ∧
    (metrics.filter (fun v => v.endpoint != "")).map (fillEndpoint hostname)
        = metrics.filter (fun v => v.endpoint != "") ∧
    (metrics.map (fillEndpoint hostname)).map stripEndpoint
        = metrics.map stripEndpoint ∧
    (metrics.map (fillEndpoint hostname)).map (fillEndpoint hostname)
        = metrics.map (fillEndpoint hostname) := by
  refine ⟨?_, map_fillEndpoint_endpoint hostname metrics,
    filter_fillEndpoint_nonempty hostname metrics,
    map_fillEndpoint_strip hostname metrics,
    map_fillEndpoint_idem hostname metrics⟩
  simp [pushHandler, hne, hdec]

/-- A sample pushed point arriving without an identity. -/
def samplePointNoId : MetricValue :=
  { endpoint := "", metric := "cpu.load", value := 1, step := 60,
    counterType := "GAUGE", tags := "", timestamp := 100 }

/-- A sample pushed point arriving with an identity already set. -/
def samplePointWithId : MetricValue :=
  { endpoint := "host-a", metric := "mem.used", value := 2, step := 60,
    counterType := "GAUGE", tags := "t=v", timestamp := 100 }

/-- A sample decoded batch mixing the two cases. -/
def sampleBatch : List MetricValue := [samplePointNoId, samplePointWithId]

/-- A sample well-formed push request carrying the sample batch. -/
def sampleReq : PushRequest :=
  { contentLength := 42, headers := [], decodeResult := Except.ok sampleBatch }

theorem push_identity_defaulting_witness :
    (pushHandler "local-host" true sampleReq).forwarded
        = some (sampleBatch.map (fillEndpoint "local-host")) ∧
    (sampleBatch.map (fillEndpoint "local-host")).map MetricValue.endpoint
        = sampleBatch.map
            (fun v => if v.endpoint = "" then "local-host" else v.endpoint) ∧
    (sampleBatch.filter (fun v => v.endpoint != "")).map (fillEndpoint "local-host")
        = sampleBatch.filter (fun v => v.endpoint != "") ∧
    (sampleBatch.map (fillEndpoint "local-host")).map stripEndpoint
        = sampleBatch.map stripEndpoint ∧
    (sampleBatch.map (fillEndpoint "local-host")).map (fillEndpoint "local-host")
        = sampleBatch.map (fillEndpoint "local-host") :=
  push_identity_defaulting "local-host" true sampleReq sampleBatch (by decide) rfl

/-- C2: a push request with a zero content length is answered 400 with
the fixed blank-body error text and nothing is forwarded, whatever the
headers, the content type, and whatever the decoder would have said. -/
theorem push_empty_body (hostname : String) (sinkOk : Bool)
    (req : PushRequest) (h : req.contentLength = 0) :
    pushHandler hostname sinkOk req
      = { response := { status := 400, body := "body is blank" },
          forwarded := none } := by
  simp [pushHandler, h]

theorem push_empty_body_witness :
    pushHandler "local-host" true
        { contentLength := 0,
          headers := [("Content-Type", "text/plain"), ("X-Extra", "1")],
          decodeResult := Except.error "EOF" }
      = { response := { status := 400, body := "body is blank" },
          forwarded := none } :=
  push_empty_body "local-host" true _ rfl

/-- C3: a push request with a non-empty body that the JSON decoder
rejects is answered 400 with the fixed decode-failure text; the handler
aborts, so no identity defaulting happens and nothing is forwarded. -/
theorem push_decode_failure (hostname : String) (sinkOk : Bool)
    (req : PushRequest) (msg : String) (hne : req.contentLength ≠ 0)
    (hdec : req.decodeResult = Except.error msg) :
    pushHandler hostname sinkOk req
      = { response := { status := 400, body := "connot decode body" },
          forwarded := none } := by
  simp [pushHandler, hne, hdec]

theorem push_decode_failure_witness :
    pushHandler "local-host" false
        { contentLength := 7, headers := [("Content-Type", "application/json")],
          decodeResult := Except.error "invalid character" }
      = { response := { status := 400, body := "connot decode body" },
          forwarded := none } :=
  push_decode_failure "local-host" false _ "invalid character" (by decide) rfl

/-- C4: when the body decodes, the handler forwards the defaulted batch
and answers 200 with the fixed success literal; the answer does not
depend on the outcome of the downstream transfer (the handler behaves
identically for any two transfer outcomes) and in particular is never a
400 on this path. -/
theorem push_success_fire_and_forget (hostname : String)
    (sinkOne sinkTwo : Bool) (req : PushRequest) (metrics : List MetricValue)
    (hne : req.contentLength ≠ 0)
    (hdec : req.decodeResult = Except.ok metrics) :
    (pushHandler hostname sinkOne req).response
        = { status := 200, body := "success" } ∧
    (pushHandler hostname sinkOne req).forwarded
        = some (metrics.map (fillEndpoint hostname)) ∧
    (pushHandler hostname sinkOne req).response.status ≠ 400 ∧
    pushHandler hostname sinkOne req = pushHandler hostname sinkTwo req := by
  refine ⟨?_, ?_, ?_, ?_⟩ <;> simp [pushHandler, hne, hdec]

theorem push_success_fire_and_forget_witness :
    (pushHandler "local-host" true sampleReq).response
        = { status := 200, body := "success" } ∧
    (pushHandler "local-host" true sampleReq).forwarded
        = some (sampleBatch.map (fillEndpoint "local-host")) ∧
    (pushHandler "local-host" true sampleReq).response.status ≠ 400 ∧
    pushHandler "local-host" true sampleReq
      = pushHandler "local-host" false sampleReq :=
  push_success_fire_and_forget "local-host" true false sampleReq sampleBatch
    (by decide) rfl

/-- C10: a non-empty body that decodes to the empty batch (for instance
the literal empty array or the literal null) is not a client error: the
handler forwards the empty batch and answers 200 with the success
literal. -/
theorem push_empty_batch (hostname : String) (sinkOk : Bool)
    (req : PushRequest) (hne : req.contentLength ≠ 0)
    (hdec : req.decodeResult = Except.ok []) :
    pushHandler hostname sinkOk req
      = { response := { status := 200, body := "success" },
          forwarded := some [] } := by
  simp [pushHandler, hne, hdec]

theorem push_empty_batch_witness :
    pushHandler "local-host" true
        { contentLength := 2, headers := [("Content-Type", "application/json")],
          decodeResult := Except.ok [] }
      = { response := { status := 200, body := "success" },
          forwarded := some [] } :=
  push_empty_batch "local-host" true _ (by decide) rfl

end Push

namespace K8s

/-- Modelled from the spec: the key of the Watch Cache keyed store,
resource kind plus namespace plus name.  The store implementation lives
in the external client-go library; only its callers are part of this
repository. -/
structure ObjKey where
  kind : String
  ns : String
  name : String
deriving DecidableEq, Repr

/-- Modelled from the spec: a Watch Cache keyed store holding the live
objects of one resource kind.  Its well-formedness invariant wf says
that at most one live entry exists per key at any time. -/
structure Store (α : Type) where
  entries : List (ObjKey × α)

/-- The store List operation: the current objects, in store order. -/
def Store.list {α : Type} (s : Store α) : List α :=
  s.entries.map Prod.snd

/-- The uniqueness invariant: no two live entries share a key. -/
def Store.wf {α : Type} (s : Store α) : Prop :=
  (s.entries.map Prod.fst).Nodup

/-- Replace the entry for a key, or append a fresh entry when the key is
absent. -/
def upsertEntries {α : Type} (k : ObjKey) (o : α) :
    List (ObjKey × α) → List (ObjKey × α)
  | [] => [(k, o)]
  | e :: t => if e.1 == k then (k, o) :: t else e :: upsertEntries k o t

/-- Modelled from the spec: applying an add or update watch event stores
the object under its key, replacing any existing entry for that key. -/
def Store.applyUpdate {α : Type} (s : Store α) (k : ObjKey) (o : α) : Store α :=
  ⟨upsertEntries k o s.entries⟩

/-- Modelled from the spec: applying a delete watch event removes the
entry for the key. -/
def Store.applyDelete {α : Type} (s : Store α) (k : ObjKey) : Store α :=
  ⟨s.entries.filter (fun e => !(e.1 == k))⟩

/-- Lookup by key in the store. -/
def Store.get {α : Type} (s : Store α) (k : ObjKey) : Option α :=
  (s.entries.find? (fun e => e.1 == k)).map Prod.snd

/-- A deployment object (v1beta1.Deployment); the exporter treats it
opaquely except for the handful of fields projected into metrics, so the
payload is carried abstractly. -/
structure Deployment where
  payload : String
deriving DecidableEq, Repr

/-- A pod object (v1.Pod), carried opaquely. -/
structure Pod where
  payload : String
deriving DecidableEq, Repr

/-- A node object (v1.Node), carried opaquely. -/
structure Node where
  payload : String
deriving DecidableEq, Repr

/-- A replication controller object (v1.ReplicationController), carried
opaquely. -/
structure ReplicationController where
  payload : String
deriving DecidableEq, Repr

/-- A node list (v1.NodeList) as built by the node lister: a struct with
an Items slice. -/
structure NodeList where
  items : List Node
deriving DecidableEq, Repr

/-- DeploymentLister from k8s/main.go: a bare function returning the
deployments and an error (none models a nil Go error). -/
def DeploymentLister : Type := Unit → List Deployment × Option String

/-- The List method of DeploymentLister simply invokes the function. -/
def DeploymentLister.List (l : DeploymentLister) : List Deployment × Option String :=
  l ()

/-- PodLister from k8s/main.go. -/
def PodLister : Type := Unit → List Pod × Option String

/-- The List method of PodLister simply invokes the function. -/
def PodLister.List (l : PodLister) : List Pod × Option String :=
  l ()

/-- NodeLister from k8s/main.go; note it returns a NodeList value. -/
def NodeLister : Type := Unit → NodeList × Option String

/-- The List method of NodeLister simply invokes the function. -/
def NodeLister.List (l : NodeLister) : NodeList × Option String :=
  l ()

/-- RCLister from k8s/main.go. -/
def RCLister : Type := Unit → List ReplicationController × Option String

/-- The List method of RCLister simply invokes the function. -/
def RCLister.List (l : RCLister) : List ReplicationController × Option String :=
  l ()

/-- The deployment lister closure built in InitializeMetricCollection:
it walks the backing store List output, appends a value copy of each
entry, and returns a nil error. -/
def dplLister (dinf : Store Deployment) : DeploymentLister :=
  fun _ => (dinf.list.foldl (fun deployments c => deployments ++ [c]) [], none)

/-- The pod lister closure built in InitializeMetricCollection. -/
def podLister (pinf : Store Pod) : PodLister :=
  fun _ => (pinf.list.foldl (fun pods m => pods ++ [m]) [], none)

/-- The node lister closure built in InitializeMetricCollection; it
appends each node to the Items slice of a NodeList. -/
def nodeLister (ninf : Store Node) : NodeLister :=
  fun _ => ({ items := ninf.list.foldl (fun ms m => ms ++ [m]) [] }, none)

/-- The replication controller lister closure built in
InitializeMetricCollection. -/
def rcLister (rinf : Store ReplicationController) : RCLister :=
  fun _ => (rinf.list.foldl (fun rcs m => rcs ++ [m]) [], none)

/-- An HTTP request as seen by the scrape server handlers; the healthz
handler ignores all of it. -/
structure HttpRequest where
  method : String
  path : String
  headers : List (String × String)
  body : String

/-- The healthzPath handler registered in metricsServer: WriteHeader 200
followed by writing the body ok.  Its closure captures no cache state,
so the model takes only the request. -/
def healthzHandler (r : HttpRequest) : HttpResponse :=
  { status := 200, body := "ok" }

theorem foldl_append_eq {α : Type} (l : List α) :
    ∀ init : List α, l.foldl (fun xs c => xs ++ [c]) init = init ++ l := by
  induction l with
  | nil => intro init; simp
  | cons x t ih => intro init; simp [ih]

theorem upsertEntries_find {α : Type} (k : ObjKey) (o : α)
    (l : List (ObjKey × α)) :
    (upsertEntries k o l).find? (fun e => e.1 == k) = some (k, o) := by
  induction l with
  | nil => simp [upsertEntries]
  | cons e t ih =>
      by_cases h : e.1 = k
      · simp [upsertEntries, h]
      · simp [upsertEntries, h, ih]

theorem upsertEntries_keys_mem {α : Type} (k x : ObjKey) (o : α)
    (l : List (ObjKey × α)) :
    x ∈ (upsertEntries k o l).map Prod.fst ↔
      x = k ∨ x ∈ l.map Prod.fst := by
  induction l with
  | nil => simp [upsertEntries]
  | cons e t ih =>
      by_cases h : e.1 = k
      · simp [upsertEntries, h]
      · simp [upsertEntries, h, ih]
        tauto

theorem upsertEntries_wf {α : Type} (k : ObjKey) (o : α)
    (l : List (ObjKey × α)) (hl : (l.map Prod.fst).Nodup) :
    ((upsertEntries k o l).map Prod.fst).Nodup := by
  induction l with
  | nil => simp [upsertEntries]
  | cons e t ih =>
      simp only [List.map_cons, List.nodup_cons] at hl
      by_cases h : e.1 = k
      · simp only [upsertEntries, h, beq_self_eq_true, if_true, List.map_cons,
          List.nodup_cons]
        exact ⟨h ▸ hl.1, hl.2⟩
      · simp only [upsertEntries, h]
        simp only [beq_iff_eq, h, if_false, List.map_cons, List.nodup_cons]
        refine ⟨?_, ih hl.2⟩
        rw [upsertEntries_keys_mem]
        rintro (rfl | hm)
        · exact h rfl
        · exact hl.1 hm

theorem countP_key_eq_zero {α : Type} (k : ObjKey) (l : List (ObjKey × α))
    (h : k ∉ l.map Prod.fst) :
    l.countP (fun e => e.1 == k) = 0 := by
  induction l with
  | nil => simp
  | cons e t ih =>
      simp only [List.map_cons, List.mem_cons] at h
      push_neg at h
      rw [List.countP_cons]
      simp only [beq_iff_eq]
      rw [ih h.2]
      simp [Ne.symm h.1]

theorem upsertEntries_countP {α : Type} (k : ObjKey) (o : α)
    (l : List (ObjKey × α)) (hl : (l.map Prod.fst).Nodup) :
    (upsertEntries k o l).countP (fun e => e.1 == k) = 1 := by
  induction l with
  | nil => simp [upsertEntries]
  | cons e t ih =>
      simp only [List.map_cons, List.nodup_cons] at hl
      by_cases h : e.1 = k
      · simp only [upsertEntries, h]
        simp only [beq_self_eq_true, if_true, List.countP_cons]
        rw [countP_key_eq_zero k t (h ▸ hl.1)]
      · simp only [upsertEntries, h]
        simp only [beq_iff_eq, h, if_false, List.countP_cons]
        rw [ih hl.2]

theorem filter_key_find_none {α : Type} (k : ObjKey) (l : List (ObjKey × α)) :
    (l.filter (fun e => !(e.1 == k))).find? (fun e => e.1 == k) = none := by
  induction l with
  | nil => simp
  | cons e t ih =>
      by_cases h : e.1 = k
      · simp [List.filter_cons, h, ih]
      · simp [List.filter_cons, h, ih]

theorem filter_key_countP_zero {α : Type} (k : ObjKey) (l : List (ObjKey × α)) :
    (l.filter (fun e => !(e.1 == k))).countP (fun e => e.1 == k) = 0 := by
  induction l with
  | nil => simp
  | cons e t ih =>
      by_cases h : e.1 = k
      · simp [List.filter_cons, h, ih]
      · simp [List.filter_cons, List.countP_cons, h, ih]

theorem filter_keys_nodup {α : Type} (p : ObjKey × α → Bool)
    (l : List (ObjKey × α)) (hl : (l.map Prod.fst).Nodup) :
    ((l.filter p).map Prod.fst).Nodup :=
  List.Nodup.sublist (List.Sublist.map Prod.fst (List.filter_sublist l)) hl

/-- C5: each typed Lister List call returns exactly the current contents
of its backing store, elementwise equal as value copies, so the result
has no extra, missing, or duplicated entries relative to the store
snapshot; when the store holds N objects the result holds exactly those
N objects. -/
theorem lister_snapshot (s1 : Store Deployment) (s2 : Store Pod)
    (s3 : Store Node) (s4 : Store ReplicationController) :
    (dplLister s1).List = (s1.list, none) ∧
    (podLister s2).List = (s2.list, none) ∧
    (nodeLister s3).List = ({ items := s3.list }, none) ∧
    (rcLister s4).List = (s4.list, none) := by
  refine ⟨?_, ?_, ?_, ?_⟩ <;>
    simp [dplLister, podLister, nodeLister, rcLister, DeploymentLister.List,
      PodLister.List, NodeLister.List, RCLister.List, foldl_append_eq]

/-- C6: the four typed Listers always return a nil error: the error
component of every List call is none for every state of the backing
store, since the store List operation is total. -/
theorem lister_no_error (s1 : Store Deployment) (s2 : Store Pod)
    (s3 : Store Node) (s4 : Store ReplicationController) :
    ((dplLister s1).List).2 = none ∧
    ((podLister s2).List).2 = none ∧
    ((nodeLister s3).List).2 = none ∧
    ((rcLister s4).List).2 = none := by
  refine ⟨rfl, rfl, rfl, rfl⟩

/-- C7: the healthz handler answers 200 with body ok for every request,
whatever its method, path, headers or body; its closure captures no
cache state, so the response is also independent of the caches. -/
theorem healthz_ok (r : HttpRequest) :
    healthzHandler r = { status := 200, body := "ok" } := rfl

/-- C8: the watch cache store keeps at most one live entry per key:
starting from any well-formed store, applying an update for a key leaves
the store well formed, makes List reflect the updated object with
exactly one entry for that key, and applying a delete for a key leaves
the store well formed with no remaining entry for that key. -/
theorem watchCache_update_delete (α : Type) (s : Store α) (k : ObjKey)
    (o : α) (hwf : s.wf) :
    (s.applyUpdate k o).wf ∧
    (s.applyUpdate k o).get k = some o ∧
    o ∈ (s.applyUpdate k o).list ∧
    (s.applyUpdate k o).entries.countP (fun e => e.1 == k) = 1 ∧
    (s.applyDelete k).wf ∧
    (s.applyDelete k).get k = none ∧
    (s.applyDelete k).entries.countP (fun e => e.1 == k) = 0 := by
  refine ⟨upsertEntries_wf k o s.entries hwf, ?_, ?_,
    upsertEntries_countP k o s.entries hwf,
    filter_keys_nodup _ s.entries hwf, ?_,
    filter_key_countP_zero k s.entries⟩
  · simp [Store.get, Store.applyUpdate, upsertEntries_find]
  · exact List.mem_map_of_mem Prod.snd
      (List.mem_of_find?_eq_some (upsertEntries_find k o s.entries))
  · simp [Store.get, Store.applyDelete, filter_key_find_none]

theorem watchCache_update_delete_witness :
    ((Store.mk [(ObjKey.mk "Pod" "default" "a", Pod.mk "p1"),
        (ObjKey.mk "Pod" "default" "b", Pod.mk "p2")]).applyUpdate
        (ObjKey.mk "Pod" "default" "a") (Pod.mk "p3")).wf ∧
    ((Store.mk [(ObjKey.mk "Pod" "default" "a", Pod.mk "p1"),
        (ObjKey.mk "Pod" "default" "b", Pod.mk "p2")]).applyUpdate
        (ObjKey.mk "Pod" "default" "a") (Pod.mk "p3")).get
        (ObjKey.mk "Pod" "default" "a") = some (Pod.mk "p3") ∧
    Pod.mk "p3" ∈ ((Store.mk [(ObjKey.mk "Pod" "default" "a", Pod.mk "p1"),
        (ObjKey.mk "Pod" "default" "b", Pod.mk "p2")]).applyUpdate
        (ObjKey.mk "Pod" "default" "a") (Pod.mk "p3")).list ∧
    ((Store.mk [(ObjKey.mk "Pod" "default" "a", Pod.mk "p1"),
        (ObjKey.mk "Pod" "default" "b", Pod.mk "p2")]).applyUpdate
        (ObjKey.mk "Pod" "default" "a") (Pod.mk "p3")).entries.countP
        (fun e => e.1 == ObjKey.mk "Pod" "default" "a") = 1 ∧
    ((Store.mk [(ObjKey.mk "Pod" "default" "a", Pod.mk "p1"),
        (ObjKey.mk "Pod" "default" "b", Pod.mk "p2")]).applyDelete
        (ObjKey.mk "Pod" "default" "a")).wf ∧
    ((Store.mk [(ObjKey.mk "Pod" "default" "a", Pod.mk "p1"),
        (ObjKey.mk "Pod" "default" "b", Pod.mk "p2")]).applyDelete
        (ObjKey.mk "Pod" "default" "a")).get
        (ObjKey.mk "Pod" "default" "a") = none ∧
    ((Store.mk [(ObjKey.mk "Pod" "default" "a", Pod.mk "p1"),
        (ObjKey.mk "Pod" "default" "b", Pod.mk "p2")]).applyDelete
        (ObjKey.mk "Pod" "default" "a")).entries.countP
        (fun e => e.1 == ObjKey.mk "Pod" "default" "a") = 0 :=
  watchCache_update_delete Pod
    (Store.mk [(ObjKey.mk "Pod" "default" "a", Pod.mk "p1"),
      (ObjKey.mk "Pod" "default" "b", Pod.mk "p2")])
    (ObjKey.mk "Pod" "default" "a") (Pod.mk "p3")
    (by simp only [Store.wf]; decide)

/-- C9: when a backing store is empty, the typed Lister of that kind
returns the empty list together with a nil error, so a scrape at that
moment sees zero objects of the kind rather than an error. -/
theorem lister_empty_store (s1 : Store Deployment) (s2 : Store Pod)
    (s3 : Store Node) (s4 : Store ReplicationController)
    (h1 : s1.entries = []) (h2 : s2.entries = [])
    (h3 : s3.entries = []) (h4 : s4.entries = []) :
    (dplLister s1).List = ([], none) ∧
    (podLister s2).List = ([], none) ∧
    (nodeLister s3).List = ({ items := [] }, none) ∧
    (rcLister s4).List = ([], none) := by
  refine ⟨?_, ?_, ?_, ?_⟩ <;>
    simp [dplLister, podLister, nodeLister, rcLister, DeploymentLister.List,
      PodLister.List, NodeLister.List, RCLister.List, Store.list, h1, h2, h3, h4]

theorem lister_empty_store_witness :
    (dplLister (Store.mk [])).List = ([], none) ∧
    (podLister (Store.mk [])).List = ([], none) ∧
    (nodeLister (Store.mk [])).List = ({ items := [] }, none) ∧
    (rcLister (Store.mk [])).List = ([], none) :=
  lister_empty_store (Store.mk []) (Store.mk []) (Store.mk []) (Store.mk [])
    rfl rfl rfl rfl

end K8s

end Agent
